import Mathlib

/-!
# Verification of the Gemini voice/tool-calling client

Shallow embedding of the tool-execution engine of `final_tool.py` and the
audio session orchestrator of `final.py`, together with theorems settling
the frozen specification claims.

Conventions:
* Python dictionaries are embedded as association lists (`List (String × _)`)
  with first-match lookup and insert-or-overwrite update, matching CPython
  dict semantics for the unique-key dictionaries the program builds.
* Python string formatting templates (`"...{name}..."`) are embedded
  structurally as lists of segments (`Seg.lit`, `Seg.ph`); the regex rewrite
  of `{{name}}` into `{name}` done by the source in `convert_workflow_to_user_tools`
  is the identity on this structural form.
* Network and model I/O (`requests`, `generate_content`, `run_rag`) are
  external collaborators; they are embedded as oracle functions carried in
  the environment, and every performed call is recorded in an effect log.
* Uncaught Python exceptions are embedded as the `Outcome.exn` constructor.
-/

/-- A single quote character, used when rendering Python `str(dict)` output. -/
def squote : String := (Char.ofNat 39).toString

/-- Wrap a string in single quotes (Python `repr` of a simple string). -/
def sqt (s : String) : String := squote ++ s ++ squote

/-- Python scalar values as they occur in tool-call arguments and JSON
results.  JSON objects are flattened to string-valued entries, which is all
the engine itself ever constructs (`{"error": msg}` dictionaries). -/
inductive PyVal where
  | str (s : String)
  | int (n : Int)
  | bool (b : Bool)
  | none
  | dict (entries : List (String × String))
deriving DecidableEq, Repr

/-- Python truthiness (`bool(v)`): empty string, `0`, `False`, `None` and
the empty dict are falsy. -/
def truthy : PyVal → Bool
  | PyVal.str s => s ≠ ""
  | PyVal.int n => n ≠ 0
  | PyVal.bool b => b
  | PyVal.none => false
  | PyVal.dict l => ¬ l.isEmpty

/-- Python `str(v)` for the embedded values (used by `str.format`). -/
def pyStr : PyVal → String
  | PyVal.str s => s
  | PyVal.int n => toString n
  | PyVal.bool b => if b then "True" else "False"
  | PyVal.none => "None"
  | PyVal.dict l =>
      "\x7b" ++ String.intercalate ", " (l.map (fun p => sqt p.1 ++ ": " ++ sqt p.2)) ++ "\x7d"

/-- First-match association-list lookup (Python `d.get(k)` on a dict). -/
def lookupStr {α : Type} (d : List (String × α)) (k : String) : Option α :=
  match d with
  | [] => Option.none
  | (k2, v) :: rest => if k2 = k then some v else lookupStr rest k

/-- Python dict assignment `d[k] = v`: overwrite in place when the key is
present, append otherwise. -/
def dictInsert {α : Type} (d : List (String × α)) (k : String) (v : α) :
    List (String × α) :=
  match d with
  | [] => [(k, v)]
  | (k2, w) :: rest => if k2 = k then (k2, v) :: rest else (k2, w) :: dictInsert rest k v

/-- Python `s.lower()` (ASCII case folding suffices for the data of this program). -/
def pyLower (s : String) : String := String.mk (s.toList.map Char.toLower)

/-- Python `s.upper()`. -/
def pyUpper (s : String) : String := String.mk (s.toList.map Char.toUpper)

/-- Python `s.strip()`: drop leading and trailing whitespace. -/
def pyStrip (s : String) : String :=
  String.mk (((s.toList.dropWhile Char.isWhitespace).reverse.dropWhile Char.isWhitespace).reverse)

/-- Python `sep.join(parts)`. -/
def pyJoin (sep : String) : List String → String
  | [] => ""
  | [s] => s
  | s :: rest => s ++ sep ++ pyJoin sep rest

/-- The characters after the first occurrence of `needle` in the list, or
`Option.none` when `needle` does not occur.  (For a nonempty needle this is
Python `hay.split(needle, 1)[-1]` guarded by `needle in hay`; Python raises
on an empty separator, which no reachable call site produces.) -/
def afterFirstAux (needle : List Char) : List Char → Option (List Char)
  | [] => if needle.isEmpty then some [] else Option.none
  | c :: cs =>
      if needle.isPrefixOf (c :: cs) then some (List.drop needle.length (c :: cs))
      else afterFirstAux needle cs

/-- String wrapper for `afterFirstAux`. -/
def afterFirst (needle hay : String) : Option String :=
  (afterFirstAux needle.toList hay.toList).map String.mk

/-- A content part of a conversation turn (`google.genai.types.Part`):
only the text payload is relevant to parameter extraction; function-call
parts carry no text. -/
structure ContentPart where
  text : Option String
deriving DecidableEq, Repr

/-- A conversation turn (`google.genai.types.Content`): role plus parts. -/
structure Turn where
  role : String
  parts : List ContentPart
deriving DecidableEq, Repr

/-- The lower-cased space-joined text of a turn, exactly as built in
`extract_value_from_history` (final_tool.py lines 437-443): truthy text
parts are collected, joined with a space, and lower-cased. -/
def turnContent (item : Turn) : String :=
  pyLower (pyJoin " "
    (item.parts.filterMap (fun p =>
      match p.text with
      | some t => if t ≠ "" then some t else Option.none
      | Option.none => Option.none)))

/-- Core loop of `extract_value_from_history` (final_tool.py lines 433-451)
over the already-reversed history: skip non-user turns and empty contents;
when the lowered parameter name occurs, return the stripped tail after its
first occurrence if that tail is nonempty, else keep scanning. -/
def extractGo (pl : String) : List Turn → Option String
  | [] => Option.none
  | item :: rest =>
      if item.role = "user" then
        let content := turnContent item
        if content = "" then extractGo pl rest
        else
          match afterFirst pl content with
          | some tl =>
              let t := pyStrip tl
              if t ≠ "" then some t else extractGo pl rest
          | Option.none => extractGo pl rest
      else extractGo pl rest

/-- `extract_value_from_history(param, history)` (final_tool.py lines
427-451): infer a value for `param` from the user messages in `history`. -/
def extract_value_from_history (param : String) (history : List Turn) : Option String :=
  extractGo (pyLower param) history.reverse

/-- Required-parameter resolution loop of `execute_tool_calls`
(final_tool.py lines 507-523).  Returns the `final_args` association list
(in required-parameter order) and the list of missing parameter names. -/
def resolveParams (required : List String) (args : List (String × PyVal))
    (history : List Turn) : List (String × PyVal) × List String :=
  match required with
  | [] => ([], [])
  | p :: ps =>
      let rest := resolveParams ps args history
      match lookupStr args p with
      | some v =>
          if truthy v then ((p, v) :: rest.1, rest.2)
          else
            match extract_value_from_history p history with
            | some t =>
                if t = "" then ((p, PyVal.str "") :: rest.1, p :: rest.2)
                else ((p, PyVal.str t) :: rest.1, rest.2)
            | Option.none => ((p, PyVal.str "") :: rest.1, p :: rest.2)
      | Option.none =>
          match extract_value_from_history p history with
          | some t =>
              if t = "" then ((p, PyVal.str "") :: rest.1, p :: rest.2)
              else ((p, PyVal.str t) :: rest.1, rest.2)
          | Option.none => ((p, PyVal.str "") :: rest.1, p :: rest.2)

/-- A segment of a Python format template: literal text or a `{name}`
placeholder. -/
inductive Seg where
  | lit (s : String)
  | ph (name : String)
deriving DecidableEq, Repr

/-- A Python format-template string, embedded structurally. -/
abbrev Template := List Seg

/-- `template.format(**args)`: substitute each placeholder with `str(v)` of
the bound value; a placeholder with no binding raises `KeyError` (embedded
as `Except.error`), at the leftmost unbound placeholder as in CPython. -/
def formatTemplate (t : Template) (args : List (String × PyVal)) : Except String String :=
  match t with
  | [] => Except.ok ""
  | Seg.lit s :: rest => (formatTemplate rest args).map (fun r => s ++ r)
  | Seg.ph n :: rest =>
      match lookupStr args n with
      | Option.none => Except.error ("KeyError: " ++ n)
      | some v => (formatTemplate rest args).map (fun r => pyStr v ++ r)

/-- JSON-schema description of a single tool parameter, as built by
`convert_workflow_to_user_tools` (final_tool.py lines 305-319). -/
structure PropSchema where
  type : String
  description : Option String := Option.none
  enumVals : Option (List String) := Option.none
  defaultVal : Option PyVal := Option.none
deriving DecidableEq, Repr

/-- One `USER_TOOLS` entry (final_tool.py lines 335-368): the validated
registry record the execution engine dispatches on. -/
structure ToolDef where
  tool_name : String
  type : String
  description : String
  properties : List (String × PropSchema) := []
  required : List String := []
  api_url : Option Template := Option.none
  http_method : Option String := Option.none
  geocoding_url : Option String := Option.none
  prompt_template : Option Template := Option.none
  response_text : Option String := Option.none
deriving DecidableEq, Repr

/-- One function call reported by the model (`parse_fc_args` result plus
the call name, final_tool.py lines 423-424 and 493-496). -/
structure ToolCall where
  name : String
  args : List (String × PyVal)
deriving DecidableEq, Repr

/-- A `PendingParamSet`: `{"missing": [...], "args": {...}}` recorded for a
tool call with unresolved required parameters (final_tool.py line 526). -/
structure PendingEntry where
  missing : List String
  args : List (String × PyVal)
deriving DecidableEq, Repr

/-- One serialized executed-tool record `{"name", "type", "content"}`
appended to `summary_items` (final_tool.py lines 555-561). -/
structure SummaryItem where
  name : String
  type : String
  content : PyVal
deriving DecidableEq, Repr

/-- An observable external call made while processing a batch. -/
inductive Effect where
  | http (method : String) (url : String) (body : Option (List (String × PyVal))) (timeout : Nat)
  | llmCall (prompt : String)
  | summarize (payload : List SummaryItem)
  | ragCall (query : String)
deriving DecidableEq, Repr

/-- Execution environment: the tool registry, conversation history, the raw
last user utterance, and the external collaborators (HTTP transport,
auxiliary model, retrieval executor) as oracles. -/
structure Env where
  tools : List (String × ToolDef)
  history : List Turn
  userInput : String
  httpJson : String → String → Except String PyVal
  llm : String → Except String String
  ragRun : String → PyVal

/-- `call_custom_api(tool, args)` (final_tool.py lines 396-409).  The URL
is formatted OUTSIDE the `try` block, so a formatting `KeyError` escapes as
an exception (`Except.error`); transport/parsing failures inside the `try`
are recovered into an `{"error": ...}` value.  The performed HTTP request
is returned as an effect. -/
def call_custom_api (httpJson : String → String → Except String PyVal)
    (tool : ToolDef) (args : List (String × PyVal)) :
    Except String (PyVal × Effect) :=
  match tool.api_url with
  | Option.none => Except.error "KeyError: api_url"
  | some tmpl =>
      match formatTemplate tmpl args with
      | Except.error m => Except.error m
      | Except.ok url =>
          let method := pyUpper ((tool.http_method).getD "GET")
          let body := if method = "GET" then Option.none else some args
          match httpJson method url with
          | Except.ok v => Except.ok (v, Effect.http method url body 10)
          | Except.error m =>
              Except.ok (PyVal.dict [("error", m)], Effect.http method url body 10)

/-- `handle_prompt_tool(tool, args, client)` (final_tool.py lines 412-421):
format the prompt template (a `KeyError` escapes), issue one auxiliary
model call, and strip the returned text.  A transport failure of the model
call is not caught and escapes as an exception. -/
def handle_prompt_tool (llm : String → Except String String)
    (tool : ToolDef) (args : List (String × PyVal)) :
    Except String (String × Effect) :=
  match tool.prompt_template with
  | Option.none => Except.error "KeyError: prompt_template"
  | some tmpl =>
      match formatTemplate tmpl args with
      | Except.error m => Except.error m
      | Except.ok prompt =>
          match llm prompt with
          | Except.error m => Except.error m
          | Except.ok t => Except.ok (pyStrip t, Effect.llmCall prompt)

/-- Mutable loop state of `execute_tool_calls` (final_tool.py lines
488-491): `pending_params`, `static_texts`, `summary_items`, `all_static`. -/
structure BatchSt where
  pending : List (String × PendingEntry) := []
  staticTexts : List String := []
  summaryItems : List SummaryItem := []
  allStatic : Bool := true
deriving DecidableEq, Repr

/-- Result of one iteration of the `for fc in tool_calls` loop. -/
inductive StepRes where
  | next (st : BatchSt) (eff : List Effect)
  | ragShort (result : PyVal) (eff : List Effect)
  | exn (msg : String) (eff : List Effect)
deriving DecidableEq, Repr

/-- One iteration of the tool-call loop of `execute_tool_calls`
(final_tool.py lines 493-561): look the tool up (an unknown name only
clears `all_static`), resolve required parameters, record a pending entry
when any is missing, otherwise dispatch by type.  A fully resolved `rag`
call returns from the whole function immediately; formatting and
auxiliary-model exceptions abort the function. -/
def processCall (env : Env) (st : BatchSt) (c : ToolCall) : StepRes :=
  match lookupStr env.tools c.name with
  | Option.none => StepRes.next { st with allStatic := false } []
  | some td =>
      let st1 := if td.type ≠ "static" then { st with allStatic := false } else st
      let rp := resolveParams td.required c.args env.history
      if rp.2 ≠ [] then
        StepRes.next { st1 with pending := dictInsert st1.pending c.name ⟨rp.2, rp.1⟩ } []
      else if td.type = "api" then
        match call_custom_api env.httpJson td rp.1 with
        | Except.error m => StepRes.exn m []
        | Except.ok (v, eff) =>
            StepRes.next
              { st1 with summaryItems := st1.summaryItems ++ [⟨c.name, td.type, v⟩] } [eff]
      else if td.type = "prompt" then
        match handle_prompt_tool env.llm td rp.1 with
        | Except.error m => StepRes.exn m []
        | Except.ok (t, eff) =>
            StepRes.next
              { st1 with summaryItems := st1.summaryItems ++ [⟨c.name, td.type, PyVal.str t⟩] }
              [eff]
      else if td.type = "rag" then
        let q := if env.userInput ≠ "" then env.userInput else ""
        StepRes.ragShort (env.ragRun q) [Effect.ragCall q]
      else if td.type = "static" then
        match
          (match td.prompt_template with
           | some tmpl => formatTemplate tmpl rp.1
           | Option.none => Except.ok ((td.response_text).getD ""))
        with
        | Except.error m => StepRes.exn m []
        | Except.ok text =>
            StepRes.next
              { st1 with
                staticTexts := st1.staticTexts ++ [text]
                summaryItems := st1.summaryItems ++ [⟨c.name, td.type, PyVal.str text⟩] } []
      else
        StepRes.next
          { st1 with
            summaryItems :=
              st1.summaryItems ++ [⟨c.name, td.type, PyVal.dict [("error", "Unsupported tool type.")]⟩] }
          []

/-- The result dictionary returned by `execute_tool_calls`. -/
inductive ExecResult where
  | noTools
  | pending (payload : List (String × PendingEntry))
  | staticOnly (text : String)
  | mixed (items : List SummaryItem)
  | ragMode (result : PyVal)
deriving DecidableEq, Repr

/-- A Python-level outcome: a returned value or an uncaught exception. -/
inductive Outcome where
  | result (r : ExecResult)
  | exn (msg : String)
deriving DecidableEq, Repr

/-- The post-loop aggregation of `execute_tool_calls` (final_tool.py lines
563-576) for a nonempty batch: pending parameters win, then the all-static
concatenation, then the mixed summary, else `None`. -/
def aggregate (st : BatchSt) : ExecResult :=
  if st.pending ≠ [] then ExecResult.pending st.pending
  else if st.allStatic ∧ st.staticTexts ≠ [] then
    ExecResult.staticOnly (pyJoin "\n\n" st.staticTexts)
  else if st.summaryItems ≠ [] then ExecResult.mixed st.summaryItems
  else ExecResult.noTools

/-- The `for fc in tool_calls` loop of `execute_tool_calls` followed by the
aggregation, threading the loop state and the effect log. -/
def runBatch (env : Env) (calls : List ToolCall) (st : BatchSt) (log : List Effect) :
    Outcome × List Effect :=
  match calls with
  | [] => (Outcome.result (aggregate st), log)
  | c :: rest =>
      match processCall env st c with
      | StepRes.next st2 eff => runBatch env rest st2 (log ++ eff)
      | StepRes.ragShort v eff => (Outcome.result (ExecResult.ragMode v), log ++ eff)
      | StepRes.exn m eff => (Outcome.exn m, log ++ eff)

/-- `execute_tool_calls(response, history, client, user_input)`
(final_tool.py lines 457-576), starting from the extracted list of
function calls: an empty list returns `None` (lines 485-486), otherwise
the loop runs with fresh accumulators. -/
def execute_tool_calls (env : Env) (calls : List ToolCall) : Outcome × List Effect :=
  if calls.isEmpty then (Outcome.result ExecResult.noTools, [])
  else runBatch env calls {} []

/-- The caller side in `chatbot` (final_tool.py lines 684, 720-733): after
`execute_tool_calls`, a `"mixed"` status with a nonempty item list issues
exactly one summarization call to the auxiliary model; every other status
issues none. -/
def run_tool_turn (env : Env) (calls : List ToolCall) : Outcome × List Effect :=
  match execute_tool_calls env calls with
  | (Outcome.result (ExecResult.mixed items), log) =>
      if items ≠ [] then
        (Outcome.result (ExecResult.mixed items), log ++ [Effect.summarize items])
      else (Outcome.result (ExecResult.mixed items), log)
  | other => other

/-- One `input_parameters` entry of a workflow integration descriptor
(`Option.none` throughout means the key is absent from the dict). -/
structure ParamSpec where
  name : Option String := Option.none
  type : Option String := Option.none
  description : Option String := Option.none
  required : Option Bool := Option.none
  enumVals : Option (List String) := Option.none
  defaultVal : Option PyVal := Option.none
deriving DecidableEq, Repr

/-- One `integrations` entry of the externally supplied workflow config
(final_tool.py lines 104-250); `Option.none` means the key is absent. -/
structure Integration where
  tool_id : Option String := Option.none
  tool_name : Option String := Option.none
  tool_description : Option String := Option.none
  when_to_use : Option String := Option.none
  type : Option String := Option.none
  url : Option Template := Option.none
  method : Option String := Option.none
  geocoding_url : Option String := Option.none
  response_prompt : Option Template := Option.none
  response_text : Option String := Option.none
  input_parameters : Option (List ParamSpec) := Option.none
deriving DecidableEq, Repr

/-- Conversion of a single integration descriptor into its `USER_TOOLS`
key and record, following `convert_workflow_to_user_tools` (final_tool.py
lines 277-370): key from `tool_id` or the sanitized `tool_name`; type
taken verbatim or inferred from payload presence; parameter schema built
from `input_parameters`; description from the first truthy of
`tool_description`, `when_to_use`, `tool_name`; then the type-specific
payload fields.  No shape is ever rejected. -/
def convertIntegration (integration : Integration) : String × ToolDef :=
  let tool_id := (integration.tool_id).getD ""
  let tool_name := (integration.tool_name).getD ""
  let tool_key := if tool_id ≠ "" then tool_id else (pyLower tool_name).replace " " "_"
  let t0 := (integration.type).getD ""
  let tool_type :=
    if t0 ≠ "" then t0
    else if ((integration.url).getD []) ≠ [] then "api"
    else if ((integration.response_text).getD "") ≠ "" then "static"
    else if ((integration.response_prompt).getD []) ≠ [] then "prompt"
    else "static"
  let input_params := (integration.input_parameters).getD []
  let properties := input_params.map (fun param =>
    let param_desc := (param.description).getD ""
    ((param.name).getD "",
      { type := (param.type).getD "string"
        description := if param_desc ≠ "" then some param_desc else Option.none
        enumVals := param.enumVals
        defaultVal := param.defaultVal : PropSchema }))
  let required_params := input_params.filterMap (fun param =>
    if (param.required).getD false then some ((param.name).getD "") else Option.none)
  let description :=
    let d1 := (integration.tool_description).getD ""
    let d2 := (integration.when_to_use).getD ""
    if d1 ≠ "" then d1 else if d2 ≠ "" then d2 else tool_name
  let base : ToolDef :=
    { tool_name := tool_key, type := tool_type, description := description,
      properties := properties, required := required_params }
  let entry :=
    if tool_type = "api" then
      { base with
        api_url := some ((integration.url).getD [])
        http_method :=
          if ((integration.method).getD "") ≠ "" then integration.method else Option.none
        geocoding_url :=
          if ((integration.geocoding_url).getD "") ≠ "" then integration.geocoding_url
          else Option.none }
    else if tool_type = "prompt" then
      { base with prompt_template := some ((integration.response_prompt).getD []) }
    else if tool_type = "static" then
      match integration.response_text with
      | some t => { base with response_text := some t }
      | Option.none =>
          match integration.response_prompt with
          | some rp => { base with prompt_template := some rp }
          | Option.none => base
    else base
  (tool_key, entry)

/-- `convert_workflow_to_user_tools(workflow_config)` (final_tool.py lines
256-372): fold every integration into the `user_tools` dict; a duplicate
key overwrites the earlier entry, exactly as `user_tools[tool_key] = ...`. -/
def convert_workflow_to_user_tools (integrations : List Integration) :
    List (String × ToolDef) :=
  integrations.foldl
    (fun user_tools integration =>
      let kt := convertIntegration integration
      dictInsert user_tools kt.1 kt.2)
    []

/-- The `integrations` list of `WORKFLOW_CONFIG` (final_tool.py lines
100-251), embedded verbatim; format templates are in structural form. -/
def WORKFLOW_CONFIG : List Integration :=
  [ { tool_id := some "food_suggestion_tool"
      tool_name := some "Food Suggestion"
      tool_description :=
        some "Suggest good eating options for a user given their location and time of day."
      when_to_use := some "Use this when the user asks what to eat."
      type := some "prompt"
      response_prompt := some
        [ Seg.lit "You are a local food expert.\nUser location: ", Seg.ph "location",
          Seg.lit "\nTime of day: ", Seg.ph "time_of_day",
          Seg.lit "\nUser info: ", Seg.ph "user_info",
          Seg.lit "\n\nSuggest 3-5 specific things they can eat right now.\n- Prefer local dishes and realistic options.\n- 1-2 sentences per item.\nRespond in bullet points." ]
      input_parameters := some
        [ { name := some "location", type := some "string"
            description := some ("City / area where the user is. Example: " ++ sqt "Surat, India" ++ ".")
            required := some true }
        , { name := some "time_of_day", type := some "string"
            description := some "Time of day (breakfast, lunch, evening, late night...)."
            required := some true } ] }
  , { tool_id := some "get_weather_tool"
      tool_name := some "Get Weather"
      tool_description := some "Get the current weather for a given location."
      when_to_use := some "Call this tool when the user asks for weather details."
      url := some [Seg.lit "https://api.open-meteo.com/v1/forecast"]
      method := some "GET"
      geocoding_url := some "https://geocoding-api.open-meteo.com/v1/search"
      input_parameters := some
        [ { name := some "location", type := some "string"
            description := some ("City or place to get weather for. Example: " ++ sqt "Surat, India" ++ ".")
            required := some true }
        , { name := some "unit", type := some "string"
            description := some ("Temperature unit: " ++ sqt "metric" ++ " (C) or " ++ sqt "imperial" ++ " (F).")
            required := some false
            enumVals := some ["metric", "imperial"]
            defaultVal := some (PyVal.str "metric") } ] }
  , { tool_id := some "crypto_api"
      tool_name := some "Crypto Price"
      tool_description := some "Get current price of a cryptocurrency."
      when_to_use := some "User asks for crypto prices."
      type := some "api"
      url := some
        [ Seg.lit "https://api.coingecko.com/api/v3/simple/price?ids=", Seg.ph "coin",
          Seg.lit "&vs_currencies=usd" ]
      method := some "GET"
      input_parameters := some
        [ { name := some "coin", type := some "string"
            description := some "Cryptocurrency ID", required := some true } ] }
  , { tool_id := some "news_api"
      tool_name := some "News (Inshorts)"
      tool_description := some "Get latest news headlines (summary included)."
      when_to_use := some "User requests news by category."
      type := some "api"
      url := some [Seg.lit "https://inshortsapi.vercel.app/news?category=", Seg.ph "category"]
      method := some "GET"
      input_parameters := some
        [ { name := some "category", type := some "string"
            description := some "News category", required := some true } ] }
  , { tool_id := some "quote_api"
      tool_name := some "Random Quote"
      tool_description := some "Get a random motivational or inspirational quote."
      when_to_use := some "User asks for a quote."
      type := some "api"
      url := some [Seg.lit "https://api.quotable.io/random"]
      method := some "GET"
      input_parameters := some [] }
  , { tool_id := some "joke_api"
      tool_name := some "Random Joke"
      tool_description := some "Get a random joke."
      when_to_use := some "User asks for a joke."
      type := some "api"
      url := some [Seg.lit "https://official-joke-api.appspot.com/random_joke"]
      method := some "GET"
      input_parameters := some [] }
  , { tool_id := some "cloth_combination"
      tool_name := some "Cloth Combination"
      tool_description := some "Give clothing suggestion."
      when_to_use := some "User asks what to wear."
      type := some "static"
      response_text :=
        some "Okay, you look good in any clothes, but I suggest you wear light color clothes today."
      input_parameters := some [] }
  , { tool_id := some "schedule_meeting"
      tool_name := some "Schedule Meeting"
      tool_description := some "Schedules a meeting with the provided details."
      when_to_use := some "User asks to schedule or create a meeting."
      type := some "static"
      response_prompt := some
        [ Seg.lit "Okay, I have scheduled a ", Seg.ph "duration_minutes",
          Seg.lit " minute meeting with ", Seg.ph "attendee_email",
          Seg.lit (" on " ++ squote), Seg.ph "topic", Seg.lit (squote ++ ".") ]
      input_parameters := some
        [ { name := some "attendee_email", type := some "string"
            description := some "Attendee email", required := some true }
        , { name := some "topic", type := some "string"
            description := some "Meeting topic", required := some true }
        , { name := some "duration_minutes", type := some "integer"
            description := some "Duration in minutes", required := some true } ] }
  , { tool_id := some "motivation_tool"
      tool_name := some "Motivation"
      tool_description := some "Give a motivational message using a provided topic."
      when_to_use := some "User asks for motivation on a topic."
      type := some "prompt"
      response_prompt := some
        [Seg.lit "Give a short motivational message about: ", Seg.ph "topic"]
      input_parameters := some
        [ { name := some "topic", type := some "string"
            description := some "Topic to motivate about", required := some true } ] }
  , { tool_id := some "rag_tool"
      tool_name := some "RAG Tool"
      tool_description := some "Retrieves information from internal knowledge base using RAG."
      when_to_use := some "When user asks questions about internal documents or knowledge base."
      type := some "rag"
      input_parameters := some
        [ { name := some "user_query", type := some "string"
            description := some ("User" ++ squote ++ "s query"), required := some true } ] } ]

/-- `USER_TOOLS = convert_workflow_to_user_tools(WORKFLOW_CONFIG)`
(final_tool.py line 376). -/
def USER_TOOLS : List (String × ToolDef) :=
  convert_workflow_to_user_tools WORKFLOW_CONFIG

/-- Operations performed on the inbound playback queue `audio_in_queue`
of `AudioLoop` (final.py): `enq` is `put_nowait(data)` in `receive_audio`
(line 196), `deq` is `await get()` in `play_audio` (line 254), and `drain`
is the `while not empty: get_nowait()` loop run on turn completion (lines
242-243), which contains no await and therefore runs atomically under the
asyncio event loop.  Chunks are tagged with identifiers. -/
inductive AudioEv where
  | enq (chunk : Nat)
  | deq (chunk : Nat)
  | drain
deriving DecidableEq, Repr

/-- FIFO queue semantics of one `audio_in_queue` operation: `deq` succeeds
only on the queue head, `drain` empties the queue. -/
def audioStep (q : List Nat) : AudioEv → Option (List Nat)
  | AudioEv.enq c => some (q ++ [c])
  | AudioEv.deq c =>
      match q with
      | [] => Option.none
      | x :: rest => if x = c then some rest else Option.none
  | AudioEv.drain => some []

/-- Run a sequence of queue operations; `Option.none` marks an infeasible
trace (a dequeue that does not match the FIFO head). -/
def audioRun (q : List Nat) : List AudioEv → Option (List Nat)
  | [] => some q
  | e :: es =>
      match audioStep q e with
      | some q2 => audioRun q2 es
      | Option.none => Option.none

/-- Control point of `listen_audio` (final.py lines 185-188): about to read,
holding a freshly captured frame, or suspended inside `out_queue.put`
because the bounded queue was full. -/
inductive ListenPC where
  | reading
  | haveData (frame : Nat)
  | blockedPut (frame : Nat)
deriving DecidableEq, Repr

/-- Control point of `play_audio` (final.py lines 253-257): awaiting `get`,
or inside the threaded blocking `stream.write`. -/
inductive PlayPC where
  | waitGet
  | writing (chunk : Nat)
deriving DecidableEq, Repr

/-- An outbound queue element `{"data": ..., "mime_type": ...}`. -/
structure OutboundMsg where
  data : Nat
  mimeType : String
deriving DecidableEq, Repr

/-- Shared state of the capture/playback/send tasks of `AudioLoop`:
the `ai_speaking` flag, the bounded `out_queue` (maxsize 5, final.py line
268), the inbound `audio_in_queue`, and the two task control points. -/
structure SysSt where
  aiSpeaking : Bool
  outQueue : List OutboundMsg
  audioInQueue : List Nat
  listenPC : ListenPC
  playPC : PlayPC
deriving DecidableEq, Repr

/-- `asyncio.Queue(maxsize=5)` (final.py line 268). -/
def outQueueMax : Nat := 5

/-- Scheduler events of the interleaved tasks.  Each label is one atomic
segment of task code between asyncio suspension points. -/
inductive SysLabel where
  | listenRead (frame : Nat)
  | listenCheckPut
  | listenBlockedPut
  | recvChunk (chunk : Nat)
  | playGet
  | playWriteDone
  | sendDeq
deriving DecidableEq, Repr

/-- Wrap a captured frame as the PCM message enqueued by `listen_audio`
(final.py line 188). -/
def pcmFrame (f : Nat) : OutboundMsg := ⟨f, "audio/pcm"⟩

/-- Small-step semantics of the `AudioLoop` task group.
`listenRead` is the threaded `audio_stream.read` returning (line 186);
`listenCheckPut` is the atomic `if not self.ai_speaking: await put` segment
(lines 187-188), which enqueues immediately when the queue has space and
otherwise suspends the capture task; `listenBlockedPut` is a suspended put
completing once a slot frees; `recvChunk` is `receive_audio` pushing a
received audio chunk (line 196); `playGet` is the `get` of `play_audio`
returning followed atomically by `ai_speaking = True` (lines 254-255);
`playWriteDone` is the blocking write finishing followed by
`ai_speaking = False` (lines 256-257); `sendDeq` is `send_realtime`
draining one outbound message (lines 166-168). -/
def sysStep (st : SysSt) : SysLabel → Option SysSt
  | SysLabel.listenRead f =>
      match st.listenPC with
      | ListenPC.reading => some { st with listenPC := ListenPC.haveData f }
      | _ => Option.none
  | SysLabel.listenCheckPut =>
      match st.listenPC with
      | ListenPC.haveData f =>
          if st.aiSpeaking then some { st with listenPC := ListenPC.reading }
          else if st.outQueue.length < outQueueMax then
            some { st with listenPC := ListenPC.reading,
                           outQueue := st.outQueue ++ [pcmFrame f] }
          else some { st with listenPC := ListenPC.blockedPut f }
      | _ => Option.none
  | SysLabel.listenBlockedPut =>
      match st.listenPC with
      | ListenPC.blockedPut f =>
          if st.outQueue.length < outQueueMax then
            some { st with listenPC := ListenPC.reading,
                           outQueue := st.outQueue ++ [pcmFrame f] }
          else Option.none
      | _ => Option.none
  | SysLabel.recvChunk c => some { st with audioInQueue := st.audioInQueue ++ [c] }
  | SysLabel.playGet =>
      match st.playPC, st.audioInQueue with
      | PlayPC.waitGet, c :: rest =>
          some { st with playPC := PlayPC.writing c, audioInQueue := rest,
                         aiSpeaking := true }
      | _, _ => Option.none
  | SysLabel.playWriteDone =>
      match st.playPC with
      | PlayPC.writing _ => some { st with playPC := PlayPC.waitGet, aiSpeaking := false }
      | _ => Option.none
  | SysLabel.sendDeq =>
      match st.outQueue with
      | _ :: rest => some { st with outQueue := rest }
      | [] => Option.none

/-- Whether firing `l` in state `st` appends a frame to the outbound
queue. -/
def stepEnqueues (st : SysSt) (l : SysLabel) : Bool :=
  match l with
  | SysLabel.listenCheckPut =>
      match st.listenPC with
      | ListenPC.haveData _ => !st.aiSpeaking && decide (st.outQueue.length < outQueueMax)
      | _ => false
  | SysLabel.listenBlockedPut =>
      match st.listenPC with
      | ListenPC.blockedPut _ => decide (st.outQueue.length < outQueueMax)
      | _ => false
  | _ => false

/-- Initial state: silent assistant, empty queues, both tasks at their
loop heads. -/
def initSt : SysSt := ⟨false, [], [], ListenPC.reading, PlayPC.waitGet⟩

/-- Checks along an execution that no enqueue onto the outbound queue ever
fires while `ai_speaking` is true; an infeasible label stops the
execution. -/
def noEnqueueWhileSpeaking (st : SysSt) : List SysLabel → Bool
  | [] => true
  | l :: ls =>
      match sysStep st l with
      | some st2 => (!(stepEnqueues st l && st.aiSpeaking)) && noEnqueueWhileSpeaking st2 ls
      | Option.none => true

/-- Effect-log observable: is this effect an HTTP request? -/
def isHttp : Effect → Bool
  | Effect.http _ _ _ _ => true
  | _ => false

/-- Effect-log observable: is this effect a call to the auxiliary model
(a prompt-tool call or the batch summarization call)? -/
def isAuxModel : Effect → Bool
  | Effect.llmCall _ => true
  | Effect.summarize _ => true
  | _ => false

/-- Number of HTTP requests in an effect log. -/
def httpCount (log : List Effect) : Nat := (log.filter isHttp).length

/-- Number of auxiliary-model calls in an effect log. -/
def auxModelCount (log : List Effect) : Nat := (log.filter isAuxModel).length

/-- The tool names of a pending-parameters payload. -/
def pendingKeys (p : List (String × PendingEntry)) : List String := p.map Prod.fst

/-- Whether a tool call has a registered tool and at least one missing
required parameter after resolution. -/
def callMissing (env : Env) (c : ToolCall) : Bool :=
  match lookupStr env.tools c.name with
  | some td => !((resolveParams td.required c.args env.history).2.isEmpty)
  | Option.none => false

/-- The effect one tool call has on the `pending_params` map. -/
def pendingStep (env : Env) (p : List (String × PendingEntry)) (c : ToolCall) :
    List (String × PendingEntry) :=
  match lookupStr env.tools c.name with
  | some td =>
      let rp := resolveParams td.required c.args env.history
      if rp.2 ≠ [] then dictInsert p c.name ⟨rp.2, rp.1⟩ else p
  | Option.none => p

/-- The `pending_params` map accumulated over a list of tool calls. -/
def pendingAfter (env : Env) (p : List (String × PendingEntry)) :
    List ToolCall → List (String × PendingEntry)
  | [] => p
  | c :: rest => pendingAfter env (pendingStep env p c) rest

/-- A tool call that resolves to a registered static tool with no missing
required parameters and whose static text renders without a formatting
error. -/
def staticCallOk (env : Env) (c : ToolCall) : Bool :=
  match lookupStr env.tools c.name with
  | some td =>
      decide (td.type = "static") &&
      decide ((resolveParams td.required c.args env.history).2 = []) &&
      (match td.prompt_template with
       | some tmpl =>
           (match formatTemplate tmpl (resolveParams td.required c.args env.history).1 with
            | Except.ok _ => true
            | Except.error _ => false)
       | Option.none => true)
  | Option.none => false

/-- The static text a static tool call produces (final_tool.py lines
545-551): the formatted template when one is configured, else the literal
`response_text` (defaulting to the empty string). -/
def staticTextOf (env : Env) (c : ToolCall) : String :=
  match lookupStr env.tools c.name with
  | some td =>
      (match td.prompt_template with
       | some tmpl =>
           (match formatTemplate tmpl (resolveParams td.required c.args env.history).1 with
            | Except.ok s => s
            | Except.error _ => "")
       | Option.none => (td.response_text).getD "")
  | Option.none => ""

/-- The literal reading of history extraction in claim C4: scan user turns most
recent first and, at the FIRST turn whose lower-cased text contains the
parameter name, take the trimmed remainder after the first occurrence as
the inferred value (even when that remainder is empty). -/
def extractClaimGo (pl : String) : List Turn → Option String
  | [] => Option.none
  | item :: rest =>
      if item.role = "user" then
        match afterFirst pl (turnContent item) with
        | some tl => some (pyStrip tl)
        | Option.none => extractClaimGo pl rest
      else extractClaimGo pl rest

/-- The literal extraction of claim C4 over chronological history. -/
def extractClaimLiteral (param : String) (history : List Turn) : Option String :=
  extractClaimGo (pyLower param) history.reverse

/-- The amended extraction specification: the first user turn, scanning
most recent first, whose lower-cased text contains the parameter name with
a NONEMPTY trimmed remainder after the first occurrence supplies that
remainder; turns with an empty remainder are skipped. -/
def extractSpecAmended (param : String) (history : List Turn) : Option String :=
  let pl := pyLower param
  ((history.reverse.find? (fun item =>
      if item.role = "user" then
        match afterFirst pl (turnContent item) with
        | some tl => pyStrip tl ≠ ""
        | Option.none => false
      else false)).bind
    (fun item => (afterFirst pl (turnContent item)).map pyStrip))

/-- Concrete environment over the embedded `USER_TOOLS` registry with
inert oracles, used to instantiate theorems at concrete inputs. -/
def envW : Env :=
  { tools := USER_TOOLS
    history := [⟨"user", [⟨some "use category sports"⟩]⟩]
    userInput := "what is the leave policy"
    httpJson := fun _ _ => Except.ok (PyVal.dict [("ok", "1")])
    llm := fun _ => Except.ok "LLM TEXT"
    ragRun := fun q => PyVal.str ("RAG:" ++ q) }

/-- The converted `USER_TOOLS` record of the `rag_tool` integration. -/
def ragToolDef : ToolDef :=
  { tool_name := "rag_tool"
    type := "rag"
    description := "Retrieves information from internal knowledge base using RAG."
    properties := [("user_query", { type := "string", description := some ("User" ++ squote ++ "s query") })]
    required := ["user_query"] }

/-- C5: a fully resolved rag-type call short-circuits — the engine hands
the raw last user utterance to the retrieval collaborator, the whole batch
returns immediately with the distinct `rag_mode` status, and the calls
after it are never processed (the conclusion does not depend on `rest`). -/
theorem rag_short_circuit (env : Env) (c : ToolCall) (rest : List ToolCall)
    (st : BatchSt) (log : List Effect) (td : ToolDef)
    (h1 : lookupStr env.tools c.name = some td) (h2 : td.type = "rag")
    (h3 : (resolveParams td.required c.args env.history).2 = []) :
    runBatch env (c :: rest) st log =
      (Outcome.result (ExecResult.ragMode (env.ragRun env.userInput)),
       log ++ [Effect.ragCall env.userInput]) := by
  have hq : (if env.userInput ≠ "" then env.userInput else "") = env.userInput := by
    by_cases h : env.userInput = "" <;> simp [h]
  simp [runBatch, processCall, h1, h2, h3, hq]

/-- Witness for C5 at a concrete batch: the rag call over `USER_TOOLS`
short-circuits past a pending static call. -/
theorem rag_short_circuit_witness :
    runBatch envW
        [⟨"rag_tool", [("user_query", PyVal.str "leave policy")]⟩,
         ⟨"cloth_combination", []⟩] {} [] =
      (Outcome.result (ExecResult.ragMode (PyVal.str "RAG:what is the leave policy")),
       [Effect.ragCall "what is the leave policy"]) := by
  have h1 : lookupStr envW.tools "rag_tool" = some ragToolDef := by decide
  exact rag_short_circuit envW
    ⟨"rag_tool", [("user_query", PyVal.str "leave policy")]⟩
    [⟨"cloth_combination", []⟩] {} [] ragToolDef h1 (by decide) (by decide)

/-- C10: a supplied argument whose value is falsy (empty string, `0`,
`False`, `None`) is discarded by resolution: the final value of the parameter
comes from history extraction, and when extraction fails the parameter is
reported missing even though the model supplied a value. -/
theorem falsy_arg_treated_absent (p : String) (ps : List String)
    (args : List (String × PyVal)) (history : List Turn) (v : PyVal)
    (h1 : lookupStr args p = some v) (h2 : truthy v = false) :
    (resolveParams (p :: ps) args history).1.head? =
      some (p, PyVal.str ((extract_value_from_history p history).getD "")) ∧
    (extract_value_from_history p history = Option.none →
      (resolveParams (p :: ps) args history).2 =
        p :: (resolveParams ps args history).2) := by
  constructor
  · simp only [resolveParams, h1, h2]
    cases he : extract_value_from_history p history with
    | none => simp
    | some t => by_cases ht : t = "" <;> simp [ht]
  · intro he
    simp [resolveParams, h1, h2, he]

/-- History used by the C10 witness: one user turn mentioning `coin`. -/
def histCoin : List Turn := [⟨"user", [⟨some "coin btc"⟩]⟩]

/-- Witness for C10: the supplied integer `0` for `coin` is discarded and
the value is extracted from history instead. -/
theorem falsy_arg_treated_absent_witness :
    (resolveParams ["coin"] [("coin", PyVal.int 0)] histCoin).1.head? =
      some ("coin", PyVal.str "btc") ∧
    (extract_value_from_history "coin" histCoin = Option.none →
      (resolveParams ["coin"] [("coin", PyVal.int 0)] histCoin).2 =
        "coin" :: (resolveParams [] [("coin", PyVal.int 0)] histCoin).2) :=
  falsy_arg_treated_absent "coin" [] [("coin", PyVal.int 0)] histCoin
    (PyVal.int 0) (by decide) (by decide)

/-- A successful extraction never returns the empty string: the returning
branch of the loop is guarded by `if tail:`. -/
theorem extractGo_ne_empty (pl : String) :
    ∀ (l : List Turn) (t : String), extractGo pl l = some t → t ≠ "" := by
  intro l
  induction l with
  | nil => intro t h; simp [extractGo] at h
  | cons item rest ih =>
      intro t h
      simp only [extractGo] at h
      by_cases hr : item.role = "user"
      · simp only [hr, if_pos] at h
        by_cases hc : turnContent item = ""
        · rw [if_pos hc] at h
          exact ih t h
        · rw [if_neg hc] at h
          cases ha : afterFirst pl (turnContent item) with
          | none => rw [ha] at h; exact ih t h
          | some tl =>
              rw [ha] at h
              by_cases hs : pyStrip tl = ""
              · simp [hs] at h
                exact ih t h
              · simp [hs] at h
                exact h ▸ hs
      · rw [if_neg hr] at h
        exact ih t h

/-- Searching an empty text: the tail after a successful occurrence is
necessarily empty. -/
theorem afterFirst_empty_eq (pl tl : String) (h : afterFirst pl "" = some tl) :
    tl = "" := by
  unfold afterFirst at h
  have hl : ("" : String).toList = [] := rfl
  rw [hl] at h
  unfold afterFirstAux at h
  simp at h
  exact h.2.symm

/-- Stripping the empty string gives the empty string. -/
theorem pyStrip_empty : pyStrip "" = "" := rfl

/-- The extraction loop equals the find-the-first-qualifying-turn
specification: a turn qualifies when it is user-authored and the stripped
remainder after the first occurrence of the parameter name is nonempty. -/
theorem extractGo_eq_find (pl : String) :
    ∀ l : List Turn,
      extractGo pl l =
        (l.find? (fun item =>
            if item.role = "user" then
              match afterFirst pl (turnContent item) with
              | some tl => pyStrip tl ≠ ""
              | Option.none => false
            else false)).bind
          (fun item => (afterFirst pl (turnContent item)).map pyStrip) := by
  intro l
  induction l with
  | nil => rfl
  | cons item rest ih =>
      simp only [extractGo, List.find?]
      by_cases hr : item.role = "user"
      · by_cases hc : turnContent item = ""
        · cases ha : afterFirst pl (turnContent item) with
          | none => simp [hr, hc, ha, ih]
          | some tl =>
              have htl : tl = "" := afterFirst_empty_eq pl tl (hc ▸ ha)
              simp [hr, hc, ha, htl, pyStrip_empty, ih]
        · cases ha : afterFirst pl (turnContent item) with
          | none => simp [hr, hc, ha, ih]
          | some tl =>
              by_cases hs : pyStrip tl = ""
              · simp [hr, hc, ha, hs, ih]
              · simp [hr, hc, ha, hs]
      · simp [hr, ih]

/-- `extract_value_from_history` satisfies the amended specification. -/
theorem extract_value_eq_spec (param : String) (history : List Turn) :
    extract_value_from_history param history = extractSpecAmended param history := by
  unfold extract_value_from_history extractSpecAmended
  exact extractGo_eq_find (pyLower param) history.reverse

/-- C4 (amended): per required parameter, resolution (1) uses the supplied
argument when it is present and truthy, (2) otherwise takes the value of
`extractSpecAmended` — the most recent user turn whose lower-cased text
contains the parameter name with a NONEMPTY trimmed remainder after its
first occurrence; turns with an empty remainder are skipped — and (3)
otherwise marks the parameter missing (with an empty-string placeholder in
the final arguments). -/
theorem param_resolution_order (p : String) (ps : List String)
    (args : List (String × PyVal)) (history : List Turn) :
    resolveParams (p :: ps) args history =
      (let rest := resolveParams ps args history
       match lookupStr args p with
       | some v =>
           if truthy v then ((p, v) :: rest.1, rest.2)
           else
             match extractSpecAmended p history with
             | some t => ((p, PyVal.str t) :: rest.1, rest.2)
             | Option.none => ((p, PyVal.str "") :: rest.1, p :: rest.2)
       | Option.none =>
           match extractSpecAmended p history with
           | some t => ((p, PyVal.str t) :: rest.1, rest.2)
           | Option.none => ((p, PyVal.str "") :: rest.1, p :: rest.2)) := by
  have hspec : extractSpecAmended p history = extract_value_from_history p history :=
    (extract_value_eq_spec p history).symm
  rw [hspec]
  simp only [resolveParams]
  cases hl : lookupStr args p with
  | some v =>
      by_cases hv : truthy v
      · simp [hv]
      · simp only [hv, Bool.false_eq_true, if_false]
        cases he : extract_value_from_history p history with
        | some t =>
            have ht : t ≠ "" :=
              extractGo_ne_empty (pyLower p) history.reverse t he
            simp [ht]
        | none => simp
  | none =>
      cases he : extract_value_from_history p history with
      | some t =>
          have ht : t ≠ "" :=
            extractGo_ne_empty (pyLower p) history.reverse t he
          simp [ht]
      | none => simp

/-- History refuting the literal C4: the most recent user turn ends with
the parameter name, an older turn mentions it mid-sentence. -/
def histC4 : List Turn :=
  [⟨"user", [⟨some "my location is paris"⟩]⟩, ⟨"user", [⟨some "enable location"⟩]⟩]

/-- Counterexample to C4 as stated: in the most recent user turn the
parameter name occurs, so the claim takes the (empty) trimmed remainder as
the inferred value; the code instead skips that turn and resolves the
value `"is paris"` from an OLDER turn. -/
theorem param_resolution_counterexample :
    extractClaimLiteral "location" histC4 = some "" ∧
    extract_value_from_history "location" histC4 = some "is paris" ∧
    (resolveParams ["location"] [] histC4).1 =
      [("location", PyVal.str "is paris")] := by
  refine ⟨?_, ?_, ?_⟩ <;> decide

/-- Running a concatenation of queue-operation traces composes. -/
theorem audioRun_append (q : List Nat) (es1 es2 : List AudioEv) :
    audioRun q (es1 ++ es2) =
      match audioRun q es1 with
      | some q1 => audioRun q1 es2
      | Option.none => Option.none := by
  induction es1 generalizing q with
  | nil => simp [audioRun]
  | cons e es ih =>
      simp only [List.cons_append, audioRun]
      cases audioStep q e with
      | some q2 => exact ih q2
      | none => rfl

/-- In any feasible trace, a dequeued chunk was either already queued at
the start or enqueued within the trace. -/
theorem audioRun_deq_mem (c : Nat) :
    ∀ (es : List AudioEv) (q qf : List Nat),
      audioRun q es = some qf → AudioEv.deq c ∈ es →
      c ∈ q ∨ AudioEv.enq c ∈ es := by
  intro es
  induction es with
  | nil => intro q qf h hm; simp at hm
  | cons e rest ih =>
      intro q qf h hm
      simp only [audioRun] at h
      cases hstep : audioStep q e with
      | none => rw [hstep] at h; simp at h
      | some q2 =>
          rw [hstep] at h
          rcases List.mem_cons.mp hm with he | hrest
          · rw [← he] at hstep
            unfold audioStep at hstep
            cases q with
            | nil => simp at hstep
            | cons x xs =>
                by_cases hx : x = c
                · left; rw [← hx]; exact List.mem_cons_self x xs
                · simp [hx] at hstep
          · rcases ih q2 qf h hrest with hq | hev
            · cases e with
              | enq d =>
                  have hq2 : q2 = q ++ [d] := by
                    unfold audioStep at hstep
                    exact (Option.some_injective _ hstep).symm
                  rw [hq2] at hq
                  rcases List.mem_append.mp hq with h1 | h2
                  · exact Or.inl h1
                  · have : c = d := by simpa using h2
                    right
                    rw [this]
                    exact List.mem_cons_self _ _
              | deq d =>
                  unfold audioStep at hstep
                  cases q with
                  | nil => simp at hstep
                  | cons x xs =>
                      by_cases hx : x = d
                      · simp [hx] at hstep
                        left
                        rw [← hstep] at hq
                        exact List.mem_cons_of_mem x hq
                      · simp [hx] at hstep
              | drain =>
                  have hq2 : q2 = [] := by
                    unfold audioStep at hstep
                    exact (Option.some_injective _ hstep).symm
                  rw [hq2] at hq
                  simp at hq
            · exact Or.inr (List.mem_cons_of_mem _ hev)

/-- C7: the turn-completion drain establishes a hard boundary — in any
feasible trace of the playback queue that contains a `drain` (the
turn-complete handler of `receive_audio`, which empties the queue
atomically), every chunk dequeued for playback after the drain was
enqueued after the drain; no chunk enqueued before the boundary is ever
played after it. -/
theorem playback_drained_on_turn_complete (pre post : List AudioEv) (qf : List Nat)
    (h : audioRun [] (pre ++ AudioEv.drain :: post) = some qf)
    (c : Nat) (hc : AudioEv.deq c ∈ post) : AudioEv.enq c ∈ post := by
  rw [audioRun_append] at h
  cases hp : audioRun [] pre with
  | none => rw [hp] at h; simp at h
  | some q1 =>
      rw [hp] at h
      simp only [audioRun] at h
      have hd : audioStep q1 AudioEv.drain = some [] := rfl
      rw [hd] at h
      rcases audioRun_deq_mem c post [] qf h hc with hq | hev
      · simp at hq
      · exact hev

/-- Witness for C7 on a concrete trace: chunks 0 and 1 arrive before the
turn-complete drain (1 is still buffered and is discarded), chunk 2 is
dequeued after it and was necessarily enqueued after it. -/
theorem playback_drained_witness :
    AudioEv.enq 2 ∈ [AudioEv.enq 2, AudioEv.deq 2] :=
  playback_drained_on_turn_complete
    [AudioEv.enq 0, AudioEv.deq 0, AudioEv.enq 1]
    [AudioEv.enq 2, AudioEv.deq 2] []
    (by decide) 2 (by decide)

/-- Interleaving that refutes C8 as stated: the capture task fills the
bounded outbound queue (5 slots) and blocks inside `put` on a sixth frame
while the flag is still false; the playback task then dequeues a chunk and
sets the speaking flag; the send task frees one slot, allowing the blocked
put to complete — an enqueue performed while `ai_speaking` is true. -/
def c8Trace : List SysLabel :=
  [SysLabel.listenRead 0, SysLabel.listenCheckPut,
   SysLabel.listenRead 1, SysLabel.listenCheckPut,
   SysLabel.listenRead 2, SysLabel.listenCheckPut,
   SysLabel.listenRead 3, SysLabel.listenCheckPut,
   SysLabel.listenRead 4, SysLabel.listenCheckPut,
   SysLabel.listenRead 5, SysLabel.listenCheckPut,
   SysLabel.recvChunk 100, SysLabel.playGet,
   SysLabel.sendDeq, SysLabel.listenBlockedPut]

/-- Counterexample to C8 as stated: it is NOT the case that along every
feasible execution of the task group no frame is enqueued while the
speaking flag is true — the blocked-put completion violates it. -/
theorem capture_suppression_counterexample :
    ¬ (∀ labels : List SysLabel, noEnqueueWhileSpeaking initSt labels = true) :=
  fun h => absurd (h c8Trace) (by decide)

/-- C8 (amended): the speaking flag is sampled once per captured frame,
after the blocking read and before the push.  If the flag is true the
frame is dropped without any enqueue; if it is false the frame is wrapped
as an `audio/pcm` message and pushed — immediately when the bounded queue
has space, otherwise the capture task blocks in `put` (and that delayed
push can later complete even after the flag has turned true). -/
theorem capture_suppression_amended (st : SysSt) (f : Nat)
    (h : st.listenPC = ListenPC.haveData f) :
    (st.aiSpeaking = true →
      sysStep st SysLabel.listenCheckPut = some { st with listenPC := ListenPC.reading } ∧
      stepEnqueues st SysLabel.listenCheckPut = false) ∧
    (st.aiSpeaking = false → st.outQueue.length < outQueueMax →
      sysStep st SysLabel.listenCheckPut =
        some { st with listenPC := ListenPC.reading,
                       outQueue := st.outQueue ++ [pcmFrame f] }) ∧
    (st.aiSpeaking = false → ¬ st.outQueue.length < outQueueMax →
      sysStep st SysLabel.listenCheckPut = some { st with listenPC := ListenPC.blockedPut f }) := by
  refine ⟨?_, ?_, ?_⟩
  · intro hs
    constructor
    · simp [sysStep, h, hs]
    · simp [stepEnqueues, h, hs]
  · intro hs hlen
    simp [sysStep, h, hs, hlen]
  · intro hs hlen
    simp [sysStep, h, hs, hlen]

/-- Concrete state for the C8 witness: the assistant is speaking while the
capture task holds a fresh frame. -/
def c8WitnessSt : SysSt := ⟨true, [], [], ListenPC.haveData 7, PlayPC.waitGet⟩

/-- Witness for the amended C8: with the flag true the captured frame is
dropped and nothing is enqueued. -/
theorem capture_suppression_witness :
    sysStep c8WitnessSt SysLabel.listenCheckPut =
      some { c8WitnessSt with listenPC := ListenPC.reading } ∧
    stepEnqueues c8WitnessSt SysLabel.listenCheckPut = false :=
  (capture_suppression_amended c8WitnessSt 7 (by decide)).1 (by decide)

/-- C3 (amended): for a fully resolved api call, the engine formats the
configured URL template with the resolved arguments and issues the
configured method with the fixed 10-second timeout.  A transport/parsing
failure is recovered into an Error result carrying the failure message and
the rest of the batch is still processed; but a template-formatting
failure (placeholder with no matching resolved argument) is raised OUTSIDE
the try block and aborts the whole batch as an uncaught exception. -/
theorem api_dispatch_amended (env : Env) (c : ToolCall) (rest : List ToolCall)
    (st : BatchSt) (log : List Effect) (td : ToolDef) (tmpl : Template)
    (h1 : lookupStr env.tools c.name = some td) (h2 : td.type = "api")
    (h3 : (resolveParams td.required c.args env.history).2 = [])
    (h4 : td.api_url = some tmpl) :
    (∀ url m,
      formatTemplate tmpl (resolveParams td.required c.args env.history).1 = Except.ok url →
      env.httpJson (pyUpper ((td.http_method).getD "GET")) url = Except.error m →
      runBatch env (c :: rest) st log =
        runBatch env rest
          { st with allStatic := false,
                    summaryItems := st.summaryItems ++
                      [⟨c.name, td.type, PyVal.dict [("error", m)]⟩] }
          (log ++ [Effect.http (pyUpper ((td.http_method).getD "GET")) url
                     (if pyUpper ((td.http_method).getD "GET") = "GET" then Option.none
                      else some (resolveParams td.required c.args env.history).1) 10])) ∧
    (∀ m,
      formatTemplate tmpl (resolveParams td.required c.args env.history).1 = Except.error m →
      runBatch env (c :: rest) st log = (Outcome.exn m, log)) := by
  constructor
  · intro url m hfmt hhttp
    simp [runBatch, processCall, call_custom_api, h1, h2, h3, h4, hfmt, hhttp]
  · intro m hfmt
    simp [runBatch, processCall, call_custom_api, h1, h2, h3, h4, hfmt]

/-- A malformed api integration: the URL template holds a placeholder `a`
that is not among the (empty) required parameters of the tool. -/
def badApiIntegration : Integration :=
  { tool_id := some "bad_api", type := some "api",
    url := some [Seg.lit "https://x/", Seg.ph "a"] }

/-- Registry-and-oracle environment containing the malformed api tool in
front of the standard workflow tools. -/
def envC3 : Env :=
  { tools := convert_workflow_to_user_tools (badApiIntegration :: WORKFLOW_CONFIG)
    history := []
    userInput := ""
    httpJson := fun _ _ => Except.ok (PyVal.dict [("ok", "1")])
    llm := fun _ => Except.ok ""
    ragRun := fun _ => PyVal.none }

/-- Counterexample to C3 as stated: the URL-formatting failure does NOT
yield an Error result — it escapes as an uncaught `KeyError` that aborts
the batch, and the following static call is never processed (the outcome
is an exception, not a result, and the effect log is empty). -/
theorem api_format_failure_counterexample :
    execute_tool_calls envC3 [⟨"bad_api", []⟩, ⟨"cloth_combination", []⟩] =
      (Outcome.exn "KeyError: a", []) := by decide

/-- Environment whose HTTP transport always fails, over `USER_TOOLS`. -/
def envC3b : Env :=
  { tools := USER_TOOLS
    history := []
    userInput := ""
    httpJson := fun _ _ => Except.error "ConnectionError: boom"
    llm := fun _ => Except.ok ""
    ragRun := fun _ => PyVal.none }

/-- The converted `USER_TOOLS` record of the `crypto_api` integration. -/
def cryptoToolDef : ToolDef :=
  { tool_name := "crypto_api"
    type := "api"
    description := "Get current price of a cryptocurrency."
    properties := [("coin", { type := "string", description := some "Cryptocurrency ID" })]
    required := ["coin"]
    api_url := some
      [ Seg.lit "https://api.coingecko.com/api/v3/simple/price?ids=", Seg.ph "coin",
        Seg.lit "&vs_currencies=usd" ]
    http_method := some "GET" }

/-- Witness for the amended C3: a transport failure of the crypto api call
becomes an Error result and the following static call is still processed. -/
theorem api_dispatch_witness :
    runBatch envC3b
        [⟨"crypto_api", [("coin", PyVal.str "bitcoin")]⟩, ⟨"cloth_combination", []⟩] {} [] =
      runBatch envC3b [⟨"cloth_combination", []⟩]
        { pending := [], staticTexts := [],
          summaryItems :=
            [⟨"crypto_api", "api", PyVal.dict [("error", "ConnectionError: boom")]⟩],
          allStatic := false }
        [Effect.http "GET"
           "https://api.coingecko.com/api/v3/simple/price?ids=bitcoin&vs_currencies=usd"
           Option.none 10] := by
  have h1 : lookupStr envC3b.tools "crypto_api" = some cryptoToolDef := by decide
  exact (api_dispatch_amended envC3b
      ⟨"crypto_api", [("coin", PyVal.str "bitcoin")]⟩ [⟨"cloth_combination", []⟩] {} []
      cryptoToolDef
      [ Seg.lit "https://api.coingecko.com/api/v3/simple/price?ids=", Seg.ph "coin",
        Seg.lit "&vs_currencies=usd" ]
      h1 (by decide) (by decide) (by decide)).1
    "https://api.coingecko.com/api/v3/simple/price?ids=bitcoin&vs_currencies=usd"
    "ConnectionError: boom" rfl rfl

/-- The `all_static` update leaves the pending map untouched. -/
theorem allStaticUpd_pending (st : BatchSt) (td : ToolDef) :
    (if td.type ≠ "static" then { st with allStatic := false } else st).pending =
      st.pending := by
  by_cases h : td.type = "static" <;> simp [h]

/-- The `all_static` update leaves the summary items untouched. -/
theorem allStaticUpd_summaryItems (st : BatchSt) (td : ToolDef) :
    (if td.type ≠ "static" then { st with allStatic := false } else st).summaryItems =
      st.summaryItems := by
  by_cases h : td.type = "static" <;> simp [h]

/-- C6 (amended): a tool call whose name is registered and whose type is
not `rag`, when reached without an uncaught exception, contributes exactly
one pending entry (keyed by its tool name) when a required parameter is
missing, and exactly one executed summary item otherwise — never both. -/
theorem call_resolution_dichotomy (env : Env) (st : BatchSt) (c : ToolCall) (td : ToolDef)
    (h1 : lookupStr env.tools c.name = some td) (h2 : td.type ≠ "rag") :
    ((resolveParams td.required c.args env.history).2 ≠ [] →
      ∃ st2, processCall env st c = StepRes.next st2 [] ∧
        st2.pending = dictInsert st.pending c.name
          ⟨(resolveParams td.required c.args env.history).2,
           (resolveParams td.required c.args env.history).1⟩ ∧
        st2.summaryItems = st.summaryItems) ∧
    ((resolveParams td.required c.args env.history).2 = [] →
      ∀ st2 eff, processCall env st c = StepRes.next st2 eff →
        st2.pending = st.pending ∧
        st2.summaryItems.length = st.summaryItems.length + 1) := by
  constructor
  · intro hmiss
    by_cases hstat : td.type = "static"
    · refine ⟨⟨dictInsert st.pending c.name
          { missing := (resolveParams td.required c.args env.history).2,
            args := (resolveParams td.required c.args env.history).1 },
          st.staticTexts, st.summaryItems, st.allStatic⟩, ?_, rfl, rfl⟩
      simp [processCall, h1, hstat, hmiss]
    · refine ⟨⟨dictInsert st.pending c.name
          { missing := (resolveParams td.required c.args env.history).2,
            args := (resolveParams td.required c.args env.history).1 },
          st.staticTexts, st.summaryItems, false⟩, ?_, rfl, rfl⟩
      simp [processCall, h1, hstat, hmiss]
  · intro hres st2 eff hp
    by_cases hapi : td.type = "api"
    · cases hca : call_custom_api env.httpJson td
          (resolveParams td.required c.args env.history).1 with
      | error m =>
          have heq : processCall env st c = StepRes.exn m [] := by
            simp [processCall, h1, hres, hapi, hca]
          rw [heq] at hp
          cases hp
      | ok ve =>
          obtain ⟨v, e⟩ := ve
          have heq : processCall env st c =
              StepRes.next
                { st with allStatic := false,
                          summaryItems := st.summaryItems ++ [⟨c.name, td.type, v⟩] } [e] := by
            simp [processCall, h1, hres, hapi, hca]
          rw [heq] at hp
          injection hp with hst2 heff
          subst hst2
          simp
    · by_cases hprompt : td.type = "prompt"
      · cases hca : handle_prompt_tool env.llm td
            (resolveParams td.required c.args env.history).1 with
        | error m =>
            have heq : processCall env st c = StepRes.exn m [] := by
              simp [processCall, h1, hres, hprompt, hca]
            rw [heq] at hp
            cases hp
        | ok te =>
            obtain ⟨t, e⟩ := te
            have heq : processCall env st c =
                StepRes.next
                  { st with allStatic := false,
                            summaryItems :=
                              st.summaryItems ++ [⟨c.name, td.type, PyVal.str t⟩] } [e] := by
              simp [processCall, h1, hres, hprompt, hca]
            rw [heq] at hp
            injection hp with hst2 heff
            subst hst2
            simp
      · by_cases hstat : td.type = "static"
        · cases hren :
              (match td.prompt_template with
               | some tmpl =>
                   formatTemplate tmpl (resolveParams td.required c.args env.history).1
               | Option.none => Except.ok ((td.response_text).getD "")) with
          | error m =>
              have heq : processCall env st c = StepRes.exn m [] := by
                simp [processCall, h1, hres, hstat, hren]
              rw [heq] at hp
              cases hp
          | ok text =>
              have heq : processCall env st c =
                  StepRes.next
                    { st with staticTexts := st.staticTexts ++ [text],
                              summaryItems :=
                                st.summaryItems ++ [⟨c.name, td.type, PyVal.str text⟩] } [] := by
                simp [processCall, h1, hres, hstat, hren]
              rw [heq] at hp
              injection hp with hst2 heff
              subst hst2
              simp
        · have heq : processCall env st c =
              StepRes.next
                { st with allStatic := false,
                          summaryItems :=
                            st.summaryItems ++
                              [⟨c.name, td.type,
                                PyVal.dict [("error", "Unsupported tool type.")]⟩] } [] := by
            simp [processCall, h1, hres, hapi, hprompt, h2, hstat]
          rw [heq] at hp
          injection hp with hst2 heff
          subst hst2
          simp

/-- Counterexample to C6 as stated: a tool call whose name is not in the
registry is processed by the loop yet produces NEITHER a
ToolExecutionResult nor a PendingParamSet — the batch returns `None` with
empty aggregations. -/
theorem request_dichotomy_counterexample :
    execute_tool_calls envW [⟨"nonexistent_tool", []⟩] =
      (Outcome.result ExecResult.noTools, []) := by decide

/-- The converted `USER_TOOLS` record of the `cloth_combination`
integration. -/
def clothToolDef : ToolDef :=
  { tool_name := "cloth_combination"
    type := "static"
    description := "Give clothing suggestion."
    response_text :=
      some "Okay, you look good in any clothes, but I suggest you wear light color clothes today." }

/-- Loop state after executing the cloth static call from empty state. -/
def clothStepSt : BatchSt :=
  ⟨[],
   ["Okay, you look good in any clothes, but I suggest you wear light color clothes today."],
   [⟨"cloth_combination", "static",
     PyVal.str "Okay, you look good in any clothes, but I suggest you wear light color clothes today."⟩],
   true⟩

/-- Witness for the amended C6: the fully resolved static call contributes
exactly one summary item and no pending entry. -/
theorem call_resolution_dichotomy_witness :
    clothStepSt.pending = ({} : BatchSt).pending ∧
    clothStepSt.summaryItems.length = ({} : BatchSt).summaryItems.length + 1 :=
  (call_resolution_dichotomy envW {} ⟨"cloth_combination", []⟩ clothToolDef
      (by decide) (by decide)).2 (by decide) clothStepSt [] (by decide)

/-- A fully resolved static call with a successful render advances the
loop state by exactly its static text, with no effect. -/
theorem processCall_static (env : Env) (st : BatchSt) (c : ToolCall)
    (hok : staticCallOk env c = true) :
    processCall env st c =
      StepRes.next
        { st with staticTexts := st.staticTexts ++ [staticTextOf env c],
                  summaryItems :=
                    st.summaryItems ++ [⟨c.name, "static", PyVal.str (staticTextOf env c)⟩] }
        [] := by
  unfold staticCallOk at hok
  cases hl : lookupStr env.tools c.name with
  | none => rw [hl] at hok; cases hok
  | some td =>
      rw [hl] at hok
      simp only [Bool.and_eq_true, decide_eq_true_eq] at hok
      obtain ⟨⟨h2, h3⟩, h4⟩ := hok
      unfold staticTextOf
      rw [hl]
      cases hpt : td.prompt_template with
      | none =>
          simp [processCall, hl, h2, h3, hpt]
      | some tmpl =>
          rw [hpt] at h4
          cases hf : formatTemplate tmpl (resolveParams td.required c.args env.history).1 with
          | error m => simp [hf] at h4
          | ok s =>
              simp [processCall, hl, h2, h3, hpt, hf]

/-- Generalized loop invariant for an all-static batch: every call appends
its text and summary item, the pending map stays empty, the `all_static`
flag stays true, and no effect is logged. -/
theorem runBatch_all_static (env : Env) :
    ∀ (calls : List ToolCall) (ts : List String) (items : List SummaryItem) (log : List Effect),
      (∀ c ∈ calls, staticCallOk env c = true) →
      runBatch env calls ⟨[], ts, items, true⟩ log =
        (Outcome.result
          (aggregate
            ⟨[], ts ++ calls.map (staticTextOf env),
             items ++ calls.map
               (fun c => ⟨c.name, "static", PyVal.str (staticTextOf env c)⟩),
             true⟩), log) := by
  intro calls
  induction calls with
  | nil => intro ts items log h; simp [runBatch]
  | cons c rest ih =>
      intro ts items log h
      have hc := h c (List.mem_cons_self c rest)
      have hrest : ∀ x ∈ rest, staticCallOk env x = true :=
        fun x hx => h x (List.mem_cons_of_mem c hx)
      simp only [runBatch, processCall_static env ⟨[], ts, items, true⟩ c hc]
      rw [List.append_nil]
      have := ih (ts ++ [staticTextOf env c])
        (items ++ [⟨c.name, "static", PyVal.str (staticTextOf env c)⟩]) log hrest
      rw [this]
      simp [List.append_assoc]

/-- C2: a nonempty batch in which every call resolves to a registered
static tool with no missing required parameters (and a well-formed
template) returns the static texts concatenated in call order separated by
exactly one blank line, with an empty effect log: no HTTP request and no
auxiliary (prompt or summarization) model call occurs. -/
theorem static_batch_composed (env : Env) (calls : List ToolCall)
    (hne : calls ≠ []) (h : ∀ c ∈ calls, staticCallOk env c = true) :
    run_tool_turn env calls =
      (Outcome.result
        (ExecResult.staticOnly (pyJoin "\n\n" (calls.map (staticTextOf env)))), []) := by
  have hrun := runBatch_all_static env calls [] [] [] h
  have hmap : calls.map (staticTextOf env) ≠ [] := by
    simpa using hne
  have hagg :
      aggregate
        ⟨[], [] ++ calls.map (staticTextOf env),
         [] ++ calls.map (fun c => ⟨c.name, "static", PyVal.str (staticTextOf env c)⟩),
         true⟩ =
      ExecResult.staticOnly (pyJoin "\n\n" (calls.map (staticTextOf env))) := by
    simp [aggregate, hmap]
  rw [hagg] at hrun
  have hex : execute_tool_calls env calls =
      (Outcome.result
        (ExecResult.staticOnly (pyJoin "\n\n" (calls.map (staticTextOf env)))), []) := by
    unfold execute_tool_calls
    rw [if_neg (by simpa [List.isEmpty_iff] using hne)]
    exact hrun
  unfold run_tool_turn
  rw [hex]

/-- Witness for C2: the two static tools compose verbatim with one blank
line and an empty effect log. -/
theorem static_batch_composed_witness :
    run_tool_turn envW
        [⟨"cloth_combination", []⟩,
         ⟨"schedule_meeting",
          [("attendee_email", PyVal.str "a@b.com"), ("topic", PyVal.str "roadmap"),
           ("duration_minutes", PyVal.int 30)]⟩] =
      (Outcome.result (ExecResult.staticOnly
        ("Okay, you look good in any clothes, but I suggest you wear light color clothes today." ++
         "\n\n" ++ "Okay, I have scheduled a 30 minute meeting with a@b.com on " ++
         squote ++ "roadmap" ++ squote ++ ".")), []) :=
  static_batch_composed envW
    [⟨"cloth_combination", []⟩,
     ⟨"schedule_meeting",
      [("attendee_email", PyVal.str "a@b.com"), ("topic", PyVal.str "roadmap"),
       ("duration_minutes", PyVal.int 30)]⟩]
    (by decide) (by decide)

/-- A successful loop iteration changes the pending map exactly as
`pendingStep` describes. -/
theorem processCall_pending_eq (env : Env) (st : BatchSt) (c : ToolCall) :
    ∀ st2 eff, processCall env st c = StepRes.next st2 eff →
      st2.pending = pendingStep env st.pending c := by
  intro st2 eff hp
  cases hl : lookupStr env.tools c.name with
  | none =>
      unfold processCall at hp
      rw [hl] at hp
      injection hp with h heff
      rw [← h]
      unfold pendingStep
      rw [hl]
  | some td =>
      have hps : pendingStep env st.pending c =
          (if (resolveParams td.required c.args env.history).2 ≠ [] then
             dictInsert st.pending c.name
               { missing := (resolveParams td.required c.args env.history).2,
                 args := (resolveParams td.required c.args env.history).1 }
           else st.pending) := by
        unfold pendingStep
        rw [hl]
      by_cases hmiss : (resolveParams td.required c.args env.history).2 = []
      · rw [hps, if_neg (by simpa using hmiss)]
        by_cases hapi : td.type = "api"
        · cases hca : call_custom_api env.httpJson td
              (resolveParams td.required c.args env.history).1 with
          | error m =>
              have heq : processCall env st c = StepRes.exn m [] := by
                simp [processCall, hl, hmiss, hapi, hca]
              rw [heq] at hp; cases hp
          | ok ve =>
              obtain ⟨v, e⟩ := ve
              have heq : processCall env st c =
                  StepRes.next
                    { st with allStatic := false,
                              summaryItems := st.summaryItems ++ [⟨c.name, td.type, v⟩] }
                    [e] := by
                simp [processCall, hl, hmiss, hapi, hca]
              rw [heq] at hp
              injection hp with h heff
              rw [← h]
        · by_cases hprompt : td.type = "prompt"
          · cases hca : handle_prompt_tool env.llm td
                (resolveParams td.required c.args env.history).1 with
            | error m =>
                have heq : processCall env st c = StepRes.exn m [] := by
                  simp [processCall, hl, hmiss, hprompt, hca]
                rw [heq] at hp; cases hp
            | ok te =>
                obtain ⟨t, e⟩ := te
                have heq : processCall env st c =
                    StepRes.next
                      { st with allStatic := false,
                                summaryItems :=
                                  st.summaryItems ++ [⟨c.name, td.type, PyVal.str t⟩] }
                      [e] := by
                  simp [processCall, hl, hmiss, hprompt, hca]
                rw [heq] at hp
                injection hp with h heff
                rw [← h]
          · by_cases hrag : td.type = "rag"
            · have heq : processCall env st c =
                  StepRes.ragShort
                    (env.ragRun (if env.userInput ≠ "" then env.userInput else ""))
                    [Effect.ragCall (if env.userInput ≠ "" then env.userInput else "")] := by
                simp [processCall, hl, hmiss, hrag]
              rw [heq] at hp; cases hp
            · by_cases hstat : td.type = "static"
              · cases hren :
                    (match td.prompt_template with
                     | some tmpl =>
                         formatTemplate tmpl (resolveParams td.required c.args env.history).1
                     | Option.none => Except.ok ((td.response_text).getD "")) with
                | error m =>
                    have heq : processCall env st c = StepRes.exn m [] := by
                      simp [processCall, hl, hmiss, hstat, hren]
                    rw [heq] at hp; cases hp
                | ok text =>
                    have heq : processCall env st c =
                        StepRes.next
                          { st with staticTexts := st.staticTexts ++ [text],
                                    summaryItems :=
                                      st.summaryItems ++
                                        [⟨c.name, td.type, PyVal.str text⟩] } [] := by
                      simp [processCall, hl, hmiss, hstat, hren]
                    rw [heq] at hp
                    injection hp with h heff
                    rw [← h]
              · have heq : processCall env st c =
                    StepRes.next
                      { st with allStatic := false,
                                summaryItems :=
                                  st.summaryItems ++
                                    [⟨c.name, td.type,
                                      PyVal.dict [("error", "Unsupported tool type.")]⟩] }
                      [] := by
                  simp [processCall, hl, hmiss, hapi, hprompt, hrag, hstat]
                rw [heq] at hp
                injection hp with h heff
                rw [← h]
      · rw [hps, if_pos (by simpa using hmiss)]
        by_cases hstat : td.type = "static"
        · have heq : processCall env st c =
              StepRes.next
                ⟨dictInsert st.pending c.name
                   { missing := (resolveParams td.required c.args env.history).2,
                     args := (resolveParams td.required c.args env.history).1 },
                 st.staticTexts, st.summaryItems, st.allStatic⟩ [] := by
            simp [processCall, hl, hmiss, hstat]
          rw [heq] at hp
          injection hp with h heff
          rw [← h]
        · have heq : processCall env st c =
              StepRes.next
                ⟨dictInsert st.pending c.name
                   { missing := (resolveParams td.required c.args env.history).2,
                     args := (resolveParams td.required c.args env.history).1 },
                 st.staticTexts, st.summaryItems, false⟩ [] := by
            simp [processCall, hl, hmiss, hstat]
          rw [heq] at hp
          injection hp with h heff
          rw [← h]

/-- If the batch loop completes with a returned result that is not the rag
short-circuit, and the accumulated pending map is nonempty, the result is
exactly the pending payload. -/
theorem runBatch_pending_result (env : Env) :
    ∀ (calls : List ToolCall) (st : BatchSt) (log : List Effect)
      (r : ExecResult) (log2 : List Effect),
      runBatch env calls st log = (Outcome.result r, log2) →
      (∀ v, r ≠ ExecResult.ragMode v) →
      pendingAfter env st.pending calls ≠ [] →
      r = ExecResult.pending (pendingAfter env st.pending calls) := by
  intro calls
  induction calls with
  | nil =>
      intro st log r log2 h hr hp
      simp only [runBatch] at h
      injection h with h1 h2
      injection h1 with h3
      rw [← h3]
      have hp2 : st.pending ≠ [] := hp
      unfold aggregate
      rw [if_pos hp2]
      rfl
  | cons c rest ih =>
      intro st log r log2 h hr hp
      simp only [runBatch] at h
      cases hpc : processCall env st c with
      | next st2 eff =>
          rw [hpc] at h
          have hpe := processCall_pending_eq env st c st2 eff hpc
          have hsw : pendingAfter env st.pending (c :: rest) =
              pendingAfter env st2.pending rest := by
            simp [pendingAfter, hpe]
          rw [hsw] at hp ⊢
          exact ih st2 (log ++ eff) r log2 h hr hp
      | ragShort v eff =>
          rw [hpc] at h
          injection h with h1 h2
          injection h1 with h3
          exact absurd h3.symm (hr v)
      | exn m eff =>
          rw [hpc] at h
          injection h with h1 h2
          cases h1

/-- Key membership after a dict insert: the inserted key joins the key
set, all other keys are preserved. -/
theorem dictInsert_keys_mem {α : Type} (d : List (String × α)) (k n : String) (v : α) :
    n ∈ (dictInsert d k v).map Prod.fst ↔ n ∈ d.map Prod.fst ∨ n = k := by
  induction d with
  | nil => simp [dictInsert]
  | cons kv rest ih =>
      obtain ⟨k2, w⟩ := kv
      by_cases hk : k2 = k
      · subst hk
        simp [dictInsert]
        tauto
      · simp [dictInsert, hk, ih]
        tauto

/-- Key characterization of the accumulated pending map: a name is a key
iff it was a key initially or some call with that name had a missing
required parameter. -/
theorem pendingAfter_keys (env : Env) :
    ∀ (calls : List ToolCall) (p : List (String × PendingEntry)) (n : String),
      n ∈ (pendingAfter env p calls).map Prod.fst ↔
        n ∈ p.map Prod.fst ∨ ∃ c ∈ calls, c.name = n ∧ callMissing env c = true := by
  intro calls
  induction calls with
  | nil => intro p n; simp [pendingAfter]
  | cons c rest ih =>
      intro p n
      simp only [pendingAfter]
      rw [ih]
      have hstep : (pendingStep env p c).map Prod.fst = p.map Prod.fst ∨
          ∀ m, m ∈ (pendingStep env p c).map Prod.fst ↔ m ∈ p.map Prod.fst ∨ m = c.name := by
        unfold pendingStep
        cases hl : lookupStr env.tools c.name with
        | none => exact Or.inl rfl
        | some td =>
            by_cases hm : (resolveParams td.required c.args env.history).2 = []
            · simp [hm]
            · right
              intro m
              simp only [if_pos (by simpa using hm)]
              exact dictInsert_keys_mem p c.name m _
      have hcm : callMissing env c =
          (match lookupStr env.tools c.name with
           | some td => !((resolveParams td.required c.args env.history).2.isEmpty)
           | Option.none => false) := rfl
      cases hl : lookupStr env.tools c.name with
      | none =>
          have hmiss : callMissing env c = false := by
            rw [hcm, hl]
          have hpe : pendingStep env p c = p := by
            unfold pendingStep; rw [hl]
          rw [hpe]
          simp only [List.mem_cons]
          constructor
          · rintro (h1 | ⟨x, hx, hn, hc⟩)
            · exact Or.inl h1
            · exact Or.inr ⟨x, Or.inr hx, hn, hc⟩
          · rintro (h1 | ⟨x, hx | hx, hn, hc⟩)
            · exact Or.inl h1
            · rw [hx] at hc
              rw [hmiss] at hc
              cases hc
            · exact Or.inr ⟨x, hx, hn, hc⟩
      | some td =>
          by_cases hm : (resolveParams td.required c.args env.history).2 = []
          · have hmiss : callMissing env c = false := by
              rw [hcm, hl]
              simp [hm]
            have hpe : pendingStep env p c = p := by
              unfold pendingStep; rw [hl]; simp [hm]
            rw [hpe]
            simp only [List.mem_cons]
            constructor
            · rintro (h1 | ⟨x, hx, hn, hc⟩)
              · exact Or.inl h1
              · exact Or.inr ⟨x, Or.inr hx, hn, hc⟩
            · rintro (h1 | ⟨x, hx | hx, hn, hc⟩)
              · exact Or.inl h1
              · rw [hx] at hc
                rw [hmiss] at hc
                cases hc
              · exact Or.inr ⟨x, hx, hn, hc⟩
          · have hmiss : callMissing env c = true := by
              rw [hcm, hl]
              simp [hm]
            have hpe : ∀ m, m ∈ (pendingStep env p c).map Prod.fst ↔
                m ∈ p.map Prod.fst ∨ m = c.name := by
              intro m
              unfold pendingStep
              rw [hl]
              simp only [if_pos (by simpa using hm)]
              exact dictInsert_keys_mem p c.name m _
            rw [hpe]
            simp only [List.mem_cons]
            constructor
            · rintro ((h1 | h1) | ⟨x, hx, hn, hc⟩)
              · exact Or.inl h1
              · exact Or.inr ⟨c, Or.inl rfl, h1.symm, hmiss⟩
              · exact Or.inr ⟨x, Or.inr hx, hn, hc⟩
            · rintro (h1 | ⟨x, hx | hx, hn, hc⟩)
              · exact Or.inl (Or.inl h1)
              · rw [hx] at hn
                exact Or.inl (Or.inr hn.symm)
              · exact Or.inr ⟨x, hx, hn, hc⟩

/-- C1 (amended): when a batch containing at least one call with missing
required parameters runs to completion without a rag short-circuit and
without an uncaught exception, the overall status is the pending
("needs more input") payload, whose keys are exactly the names of the
registered tools whose calls had missing parameters and no others.
However — this is what the original claim got wrong — fully resolved api
and prompt calls in the same batch are still dispatched, so HTTP and
auxiliary-model calls may occur while processing the batch. -/
theorem pending_aggregation_amended (env : Env) (calls : List ToolCall)
    (r : ExecResult) (log : List Effect)
    (hrun : execute_tool_calls env calls = (Outcome.result r, log))
    (hnr : ∀ v, r ≠ ExecResult.ragMode v)
    (hmiss : ∃ c ∈ calls, callMissing env c = true) :
    r = ExecResult.pending (pendingAfter env [] calls) ∧
    (∀ n, n ∈ pendingKeys (pendingAfter env [] calls) ↔
      ∃ c ∈ calls, c.name = n ∧ callMissing env c = true) := by
  have hne : calls ≠ [] := by
    rintro rfl
    obtain ⟨c, hc, _⟩ := hmiss
    cases hc
  have hkeys : ∀ n, n ∈ pendingKeys (pendingAfter env [] calls) ↔
      ∃ c ∈ calls, c.name = n ∧ callMissing env c = true := by
    intro n
    unfold pendingKeys
    rw [pendingAfter_keys env calls [] n]
    simp
  have hnonempty : pendingAfter env ([] : List (String × PendingEntry)) calls ≠ [] := by
    obtain ⟨c, hc, hm⟩ := hmiss
    intro hemp
    have := (hkeys c.name).mpr ⟨c, hc, rfl, hm⟩
    rw [hemp] at this
    cases this
  refine ⟨?_, hkeys⟩
  unfold execute_tool_calls at hrun
  rw [if_neg (by simpa [List.isEmpty_iff] using hne)] at hrun
  have : (({} : BatchSt)).pending = ([] : List (String × PendingEntry)) := rfl
  exact runBatch_pending_result env calls {} [] r log hrun hnr hnonempty

/-- Environment over `USER_TOOLS` with no conversation history. -/
def envC1 : Env :=
  { tools := USER_TOOLS
    history := []
    userInput := "hi"
    httpJson := fun _ _ => Except.ok (PyVal.dict [("x", "1")])
    llm := fun _ => Except.error "unused"
    ragRun := fun q => PyVal.str q }

/-- Counterexample to C1 as stated: the batch holds a resolved crypto api
call and a news call with a missing `category`; the overall status is
indeed the pending payload naming exactly `news_api` — but one HTTP
request WAS issued for the batch, refuting the zero-HTTP-calls clause. -/
theorem pending_zero_http_counterexample :
    execute_tool_calls envC1
        [⟨"crypto_api", [("coin", PyVal.str "bitcoin")]⟩, ⟨"news_api", []⟩] =
      (Outcome.result (ExecResult.pending
         [("news_api", ⟨["category"], [("category", PyVal.str "")]⟩)]),
       [Effect.http "GET"
          "https://api.coingecko.com/api/v3/simple/price?ids=bitcoin&vs_currencies=usd"
          Option.none 10]) ∧
    httpCount
      (execute_tool_calls envC1
        [⟨"crypto_api", [("coin", PyVal.str "bitcoin")]⟩, ⟨"news_api", []⟩]).2 = 1 := by
  constructor <;> decide

/-- Witness for the amended C1 at a concrete one-call batch with a missing
parameter. -/
theorem pending_aggregation_witness :
    ExecResult.pending [("news_api", ⟨["category"], [("category", PyVal.str "")]⟩)] =
      ExecResult.pending (pendingAfter envC1 [] [⟨"news_api", []⟩]) ∧
    (∀ n, n ∈ pendingKeys (pendingAfter envC1 [] [⟨"news_api", []⟩]) ↔
      ∃ c ∈ [(⟨"news_api", []⟩ : ToolCall)], c.name = n ∧ callMissing envC1 c = true) :=
  pending_aggregation_amended envC1 [⟨"news_api", []⟩]
    (ExecResult.pending [("news_api", ⟨["category"], [("category", PyVal.str "")]⟩)]) []
    (by decide) (fun v h => ExecResult.noConfusion h)
    ⟨⟨"news_api", []⟩, by decide, by decide⟩

/-- Looking up the just-inserted key finds the new value. -/
theorem lookupStr_dictInsert_self {α : Type} (d : List (String × α)) (k : String) (v : α) :
    lookupStr (dictInsert d k v) k = some v := by
  induction d with
  | nil => simp [dictInsert, lookupStr]
  | cons kv rest ih =>
      obtain ⟨k2, w⟩ := kv
      by_cases hk : k2 = k
      · subst hk; simp [dictInsert, lookupStr]
      · simp [dictInsert, lookupStr, hk, ih]

/-- Inserting never removes an existing key. -/
theorem lookupStr_dictInsert_isSome {α : Type} (d : List (String × α)) (k n : String) (v : α)
    (h : (lookupStr d n).isSome) : (lookupStr (dictInsert d k v) n).isSome := by
  induction d with
  | nil => simp [lookupStr] at h
  | cons kv rest ih =>
      obtain ⟨k2, w⟩ := kv
      by_cases hk : k2 = k
      · subst hk
        by_cases hn : k2 = n
        · simp [dictInsert, lookupStr, hn]
        · simp only [lookupStr, if_neg hn] at h
          simp [dictInsert, lookupStr, hn, h]
      · by_cases hn : k2 = n
        · have hnk : ¬n = k := fun hh => hk (by rw [hn, hh])
          simp [dictInsert, lookupStr, hk, hn, hnk]
        · simp only [lookupStr, if_neg hn] at h
          simp [dictInsert, lookupStr, hk, hn]
          exact ih h

/-- Folding further integrations into the registry preserves every
existing key. -/
theorem convert_fold_preserves_key (n : String) :
    ∀ (l : List Integration) (d : List (String × ToolDef)),
      (lookupStr d n).isSome →
      (lookupStr (l.foldl (fun user_tools integration =>
         let kt := convertIntegration integration
         dictInsert user_tools kt.1 kt.2) d) n).isSome := by
  intro l
  induction l with
  | nil => intro d h; exact h
  | cons i rest ih =>
      intro d h
      simp only [List.foldl]
      exact ih _ (lookupStr_dictInsert_isSome _ _ _ _ h)

/-- C9 (amended): registry loading performs NO validation — conversion is
total, and every descriptor, malformed or not, lands in the registry
under its computed key with missing fields defaulted; consequently
problems with the type-specific payload of a tool surface at call time, not at
load time. -/
theorem registry_load_total (integrations : List Integration) (integ : Integration)
    (hmem : integ ∈ integrations) :
    ∃ td, lookupStr (convert_workflow_to_user_tools integrations)
        (convertIntegration integ).1 = some td := by
  suffices h : ∀ (l : List Integration) (d : List (String × ToolDef)),
      integ ∈ l →
      (lookupStr (l.foldl (fun user_tools integration =>
         let kt := convertIntegration integration
         dictInsert user_tools kt.1 kt.2) d) (convertIntegration integ).1).isSome by
    have h2 := h integrations [] hmem
    unfold convert_workflow_to_user_tools
    exact Option.isSome_iff_exists.mp h2
  intro l
  induction l with
  | nil => intro d h2; cases h2
  | cons i rest ih =>
      intro d hmem2
      simp only [List.foldl]
      rcases List.mem_cons.mp hmem2 with heq | hr
      · subst heq
        apply convert_fold_preserves_key
        rw [lookupStr_dictInsert_self]
        rfl
      · exact ih _ hr

/-- A malformed api descriptor: declared type `api` but no URL at all. -/
def malformedApiIntegration : Integration :=
  { tool_id := some "t", type := some "api" }

/-- Environment over the registry built from the malformed descriptor,
with a transport oracle that rejects the resulting empty URL. -/
def env9 : Env :=
  { tools := convert_workflow_to_user_tools [malformedApiIntegration]
    history := []
    userInput := ""
    httpJson := fun _ _ => Except.error "MissingSchema: Invalid URL"
    llm := fun _ => Except.ok ""
    ragRun := fun _ => PyVal.none }

/-- Counterexample to C9 as stated: the malformed api entry does NOT fail
validation at load time — conversion succeeds and registers it with an
empty URL template — and the failure instead surfaces at call time as an
Error result from the attempted HTTP request on the empty URL. -/
theorem registry_validation_counterexample :
    convert_workflow_to_user_tools [malformedApiIntegration] =
      [("t", { tool_name := "t", type := "api", description := "",
               properties := [], required := [],
               api_url := some [] })] ∧
    execute_tool_calls env9 [⟨"t", []⟩] =
      (Outcome.result (ExecResult.mixed
         [⟨"t", "api", PyVal.dict [("error", "MissingSchema: Invalid URL")]⟩]),
       [Effect.http "GET" "" Option.none 10]) := by
  constructor <;> decide

/-- Witness for the amended C9: the malformed descriptor is present in the
loaded registry. -/
theorem registry_load_total_witness :
    ∃ td, lookupStr (convert_workflow_to_user_tools [malformedApiIntegration])
        (convertIntegration malformedApiIntegration).1 = some td :=
  registry_load_total [malformedApiIntegration] malformedApiIntegration
    (List.mem_singleton.mpr rfl)
